import Mathlib

set_option maxRecDepth 8192

/-!
Verification of the `mp` CLI's request-client core against its specification.

The development shallowly embeds the Go sources:
  * `internal/client/client.go` — client construction (`New`), the retry loop
    (`Client.do`), and the 429 backoff computation (`backoff`);
  * the endpoint resolver (`ResolveURL`, `ValidRegion`, `baseURLs`);
  * `cmd/helpers.go` — `newClient` (MP_TOKEN override, region defaulting);
  * the root command's `PersistentPreRunE` region validation;
  * the auto-pagination loop shared by `profiles query` and `profiles groups`.

Go `int` values are embedded as `Int`; byte values as `Nat` below 256;
HTTP effects are abstracted as explicit server oracles (functions from the
attempt/page index to the response the server would give), so the loops
become pure functions of those oracles.  The pagination loop of the source
is a `for {}` loop with data-dependent exit, so its embedding takes a fuel
argument and returns `none` when the fuel runs out; termination claims are
stated as the existence of sufficient fuel.
-/

namespace MP

/-! ## Endpoint resolver (`internal/client`, URL table) -/

/-- Region constants: `RegionUS`, `RegionEU`, `RegionIN` from the source. -/
def RegionUS : String := "us"

def RegionEU : String := "eu"

def RegionIN : String := "in"

/-- `ValidRegion` reports whether `r` is a recognized region string. -/
def ValidRegion (r : String) : Bool :=
  r == RegionUS || r == RegionEU || r == RegionIN

/-- `baseURLs` maps (family, region) to the base URL prefix, embedding the
Go nested map literal as nested association lists in source order. -/
def baseURLs : List (String × List (String × String)) :=
  [ ("query",
      [ ("us", "https://mixpanel.com/api/query"),
        ("eu", "https://eu.mixpanel.com/api/query"),
        ("in", "https://in.mixpanel.com/api/query") ]),
    ("export",
      [ ("us", "https://data.mixpanel.com/api/2.0"),
        ("eu", "https://data-eu.mixpanel.com/api/2.0"),
        ("in", "https://data-in.mixpanel.com/api/2.0") ]),
    ("app",
      [ ("us", "https://mixpanel.com/api/app"),
        ("eu", "https://eu.mixpanel.com/api/app"),
        ("in", "https://in.mixpanel.com/api/app") ]),
    ("ingestion",
      [ ("us", "https://api.mixpanel.com"),
        ("eu", "https://api-eu.mixpanel.com"),
        ("in", "https://api-in.mixpanel.com") ]) ]

/-- `ResolveURL` returns the full base URL for the given API family and
region, or an error if the family or region is unknown. -/
def ResolveURL (family region : String) : Except String String :=
  match baseURLs.lookup family with
  | none =>
      .error ("unknown API family \"" ++ family ++
        "\"; valid families: query, export, app, ingestion")
  | some regions =>
      match regions.lookup region with
      | none =>
          .error ("unknown region \"" ++ region ++ "\"; valid regions: us, eu, in")
      | some url => .ok url

/-! ## Client construction (`client.New`) -/

/-- Standard base64 alphabet. -/
def b64Chars : List Char :=
  "ABCDEFGHIJKLMNOPQRSTUVWXYZabcdefghijklmnopqrstuvwxyz0123456789+/".data

def b64Char (n : Nat) : Char := b64Chars.getD n '='

/-- Standard base64 encoding of a byte list (bytes as `Nat` below 256),
with `=` padding, as produced by Go `base64.StdEncoding.EncodeToString`. -/
def base64Chunks : List Nat → List Char
  | [] => []
  | [b0] =>
      [b64Char (b0 / 4), b64Char (b0 % 4 * 16), '=', '=']
  | [b0, b1] =>
      [b64Char (b0 / 4), b64Char (b0 % 4 * 16 + b1 / 16), b64Char (b1 % 16 * 4), '=']
  | b0 :: b1 :: b2 :: rest =>
      b64Char (b0 / 4) :: b64Char (b0 % 4 * 16 + b1 / 16) ::
        b64Char (b1 % 16 * 4 + b2 / 64) :: b64Char (b2 % 64) :: base64Chunks rest

/-- UTF-8 bytes of a string, as Go's `[]byte(s)`. -/
def utf8Bytes (s : String) : List Nat :=
  s.toUTF8.toList.map (fun b => b.toNat)

def base64Encode (bs : List Nat) : String :=
  String.mk (base64Chunks bs)

/-- The `Client` struct.  The `httpClient` transport (a 120-second timeout
handle) is not value-relevant and is not embedded. -/
structure Client where
  auth : String
  region : String
  projectID : String
  debug : Bool
deriving Repr, DecidableEq

/-- `client.New`: fails on an invalid region, then on missing credentials,
otherwise builds the client with the precomputed Basic-Auth token. -/
def New (serviceAccount serviceSecret region projectID : String) (debug : Bool) :
    Except String Client :=
  if !ValidRegion region then
    .error ("invalid region \"" ++ region ++ "\"; must be one of: us, eu, in")
  else if serviceAccount = "" ∨ serviceSecret = "" then
    .error "service_account and service_secret must be configured; run: mp config set service_account <value>"
  else
    .ok { auth := base64Encode (utf8Bytes (serviceAccount ++ ":" ++ serviceSecret)),
          region := region, projectID := projectID, debug := debug }

/-! ## Backoff and the retry loop (`client.do`, `backoff`) -/

def maxRetries : Nat := 1

def baseBackoffSec : Int := 1

/-- One nanosecond-count second, Go's `time.Second`.  Durations are embedded
as `Int` nanosecond counts (Go `time.Duration`). -/
def second : Int := 1000000000

/-- The part of an HTTP response the retry logic consumes: the status code
and the `Retry-After` header (`resp.Header.Get` yields `""` when absent). -/
structure Response where
  statusCode : Nat
  retryAfter : String
deriving Repr, DecidableEq

/-- Digits-only parse of a character list: `some` of the value when the list
is non-empty and all decimal digits, else `none`. -/
def parseDigits (cs : List Char) : Option Nat :=
  if cs.isEmpty then none
  else if cs.all Char.isDigit then
    some (cs.foldl (fun a c => a * 10 + (c.toNat - 48)) 0)
  else none

/-- Go `strconv.Atoi`: optional sign, decimal digits, 64-bit range. -/
def atoi (s : String) : Option Int :=
  match s.data with
  | '+' :: rest =>
      (parseDigits rest).bind fun n =>
        if (n : Int) ≤ 2 ^ 63 - 1 then some (n : Int) else none
  | '-' :: rest =>
      (parseDigits rest).bind fun n =>
        if (n : Int) ≤ 2 ^ 63 then some (-(n : Int)) else none
  | cs =>
      (parseDigits cs).bind fun n =>
        if (n : Int) ≤ 2 ^ 63 - 1 then some (n : Int) else none

/-- `backoff` calculates the wait after a 429 response: the `Retry-After`
header when it parses as a positive integer, else `2^attempt` seconds. -/
def backoff (attempt : Nat) (resp : Response) : Int :=
  if resp.retryAfter ≠ "" then
    match atoi resp.retryAfter with
    | some secs =>
        if 0 < secs then secs * second
        else 2 ^ attempt * baseBackoffSec * second
    | none => 2 ^ attempt * baseBackoffSec * second
  else 2 ^ attempt * baseBackoffSec * second

/-- The retry loop of `Client.do`, other than URL resolution.  `server k` is
the outcome of physically issuing the request for attempt `k` (`.error` for
a transport failure, which Go wraps and returns unretried).  `remaining`
equals `maxRetries - attempt`, so `attempt < maxRetries` in the source is
`remaining ≠ 0` here.  The result carries the returned response, the number
of requests issued, and the list of backoff waits slept. -/
def doGo (server : Nat → Except String Response) (attempt remaining : Nat) :
    Except String (Response × Nat × List Int) :=
  match server attempt with
  | .error e => .error ("executing request: " ++ e)
  | .ok resp =>
      if resp.statusCode ≠ 429 then .ok (resp, 1, [])
      else
        match remaining with
        | 0 => .ok (resp, 1, [])
        | r + 1 =>
            match doGo server (attempt + 1) r with
            | .error e => .error e
            | .ok (rr, n, ws) => .ok (rr, n + 1, backoff attempt resp :: ws)
termination_by remaining

/-- `Client.do`: resolve the base URL for the family and the client's region
(propagating failure), then run the attempt loop. -/
def clientDo (c : Client) (family : String) (server : Nat → Except String Response) :
    Except String (Response × Nat × List Int) :=
  match ResolveURL family c.region with
  | .error e => .error e
  | .ok _ => doGo server 0 maxRetries

/-! ## `cmd` layer: `newClient` and the root command's region validation -/

/-- The configuration state `newClient` reads: viper values and the
`MP_TOKEN` environment variable (`""` when unset, as `os.Getenv`). -/
structure Env where
  serviceAccount : String
  serviceSecret : String
  mpToken : String
  region : String
  projectID : String
deriving Repr, DecidableEq

/-- Split a character list at its first colon, if any. -/
def splitFirstColon : List Char → Option (List Char × List Char)
  | [] => none
  | c :: cs =>
      if c = ':' then some ([], cs)
      else
        match splitFirstColon cs with
        | none => none
        | some (l, r) => some (c :: l, r)

/-- Go `strings.SplitN(s, ":", 2)`: split at the first colon only, yielding
the one-element list `[s]` when `s` has no colon. -/
def splitN2Colon (s : String) : List String :=
  match splitFirstColon s.data with
  | none => [s]
  | some (l, r) => [String.mk l, String.mk r]

/-- Tail of `newClient` after credential selection: default an empty region
to `"us"`, then construct via `client.New`. -/
def newClientWith (sa ss : String) (env : Env) (debug : Bool) : Except String Client :=
  let region := if env.region = "" then RegionUS else env.region
  New sa ss region env.projectID debug

/-- `cmd.newClient` from `helpers.go`: an `MP_TOKEN` override (`user:secret`)
replaces the configured credentials, a malformed token is an immediate
error, and an unset region defaults to `"us"`. -/
def newClient (env : Env) (debug : Bool) : Except String Client :=
  if env.mpToken ≠ "" then
    let parts := splitN2Colon env.mpToken
    if parts.length ≠ 2 ∨ parts.getD 0 "" = "" ∨ parts.getD 1 "" = "" then
      .error "MP_TOKEN must be in the format `user:secret`"
    else
      newClientWith (parts.getD 0 "") (parts.getD 1 "") env debug
  else
    newClientWith env.serviceAccount env.serviceSecret env debug

/-- Go `strings.ToLower` restricted to its ASCII action, which is all the
region strings exercise. -/
def toLowerStr (s : String) : String :=
  String.mk (s.data.map Char.toLower)

/-- The region validation in `rootCmd.PersistentPreRunE`: a non-empty region
is lowercased into a local and checked; note the lowercased value is not
written back to the configuration. -/
def persistentPreRunRegionCheck (region : String) : Except String Unit :=
  if region ≠ "" then
    let r := toLowerStr region
    if r ≠ "us" ∧ r ≠ "eu" ∧ r ≠ "in" then
      .error ("invalid region \"" ++ r ++ "\"; must be one of: us, eu, in")
    else .ok ()
  else .ok ()

/-! ## Auto-pagination (`runProfilesQuery` / `runProfilesGroups`) -/

/-- One page of the Engage API response (`engageResponse`), with records of
an abstract type `α`. -/
structure EngageResponse (α : Type) where
  page : Int
  pageSize : Int
  sessionId : String
  status : String
  total : Int
  results : List α
deriving Repr, DecidableEq

/-- The pagination loop body shared verbatim by `runProfilesQuery` and
`runProfilesGroups`.  `server page sessionID` is the parsed page envelope the
server answers for that page request (`.error` covering a transport failure,
an HTTP status ≥ 400, or a JSON parse failure — each of which aborts the
whole fetch in the source).  State threads exactly the Go locals
(`allResults`, `sessionID`, `totalFromAPI`, `page`); the `for {}` loop is
given explicit fuel, `none` meaning the fuel ran out.  On success the result
carries the accumulated records, `totalFromAPI`, and the number of page
requests issued. -/
def fetchAux {α : Type} (server : Nat → String → Except String (EngageResponse α))
    (limit pageSize : Int) :
    List α → String → Int → Nat → Nat → Option (Except String (List α × Int × Nat))
  | _, _, _, _, 0 => none
  | acc, sessionID, totalFromAPI, page, fuel + 1 =>
      match server page sessionID with
      | .error e => some (.error e)
      | .ok pr =>
          if pr.status ≠ "ok" ∧ pr.status ≠ "" then
            some (.error ("engage API returned status \"" ++ pr.status ++ "\""))
          else
            let acc' := acc ++ pr.results
            let sessionID' := pr.sessionId
            let total' := if totalFromAPI < 0 then pr.total else totalFromAPI
            if 0 < limit ∧ limit ≤ (acc'.length : Int) then
              some (.ok (acc'.take limit.toNat, total', 1))
            else if total' ≤ (acc'.length : Int) then
              some (.ok (acc', total', 1))
            else if (pr.results.length : Int) < pageSize then
              some (.ok (acc', total', 1))
            else
              match fetchAux server limit pageSize acc' sessionID' total' (page + 1) fuel with
              | none => none
              | some (.error e) => some (.error e)
              | some (.ok (rs, t, n)) => some (.ok (rs, t, n + 1))

/-- The fetch-all operation: the `--page-size` bounds check of the command
handlers, then the pagination loop from its initial state (`page = 0`, no
session token, empty accumulator, `totalFromAPI = -1`). -/
def fetchAll {α : Type} (server : Nat → String → Except String (EngageResponse α))
    (limit pageSize : Int) (fuel : Nat) :
    Option (Except String (List α × Int × Nat)) :=
  if pageSize < 1 ∨ 1000 < pageSize then
    some (.error "`--page-size` must be between 1 and 1000")
  else
    fetchAux server limit pageSize [] "" (-1) 0 fuel

/-! ## Concrete server oracles used in scenario theorems -/

/-- A paging server holding 250 records, serving full pages of 100
(`page k` yields 100 copies of `k`), reporting `total = 250`. -/
def capServer : Nat → String → Except String (EngageResponse Nat) := fun page _ =>
  .ok { page := (page : Int), pageSize := 100, sessionId := "sess", status := "ok",
        total := 250, results := List.replicate 100 page }

/-- A paging server whose first page succeeds with 100 records and whose
later pages answer with envelope status `"error"`. -/
def errStatusServer : Nat → String → Except String (EngageResponse Nat) := fun page _ =>
  if page = 0 then
    .ok { page := 0, pageSize := 100, sessionId := "sess", status := "ok",
          total := 250, results := List.replicate 100 0 }
  else
    .ok { page := (page : Int), pageSize := 100, sessionId := "sess", status := "error",
          total := 250, results := [] }

/-- A paging server that (incorrectly) reports `total = 0` while actually
serving 50 records in its one page. -/
def totalZeroServer : Nat → String → Except String (EngageResponse Nat) := fun _ _ =>
  .ok { page := 0, pageSize := 100, sessionId := "sess", status := "ok",
        total := 0, results := List.replicate 50 7 }

/-! ## Helper lemmas -/

theorem atoi_empty : atoi "" = none := rfl

theorem lookup_eq_none {β : Type} (k : String) (l : List (String × β))
    (h : ∀ p ∈ l, k ≠ p.1) : List.lookup k l = none := by
  induction l with
  | nil => rfl
  | cons hd tl ih =>
      have hk : (k == hd.1) = false :=
        beq_eq_false_iff_ne.mpr (h hd (List.mem_cons_self hd tl))
      cases hd with
      | mk a b =>
          simp only [List.lookup, hk]
          exact ih fun p hp => h p (List.mem_cons_of_mem _ hp)

theorem lookup_mem {β : Type} (k : String) (v : β) :
    ∀ l : List (String × β), List.lookup k l = some v → (k, v) ∈ l := by
  intro l
  induction l with
  | nil => intro h; cases h
  | cons hd tl ih =>
      intro h
      cases hd with
      | mk a b =>
          by_cases hk : k = a
          · subst hk
            simp only [List.lookup, beq_self_eq_true] at h
            cases h
            exact List.mem_cons_self _ _
          · have hkb : (k == a) = false := beq_eq_false_iff_ne.mpr hk
            simp only [List.lookup, hkb] at h
            exact List.mem_cons_of_mem _ (ih h)

/-! ## Claims about the backoff computation and the retry loop -/

/-- C1: for every 429 response, the backoff wait before a retry is the
`Retry-After` header value in seconds whenever that value parses as a
positive integer `n`; otherwise it is `2 ^ attempt` seconds (1 second at
attempt 0, 2 seconds at attempt 1). -/
theorem c1_backoff_spec :
    (∀ (attempt : Nat) (resp : Response) (n : Int),
        atoi resp.retryAfter = some n → 0 < n →
        backoff attempt resp = n * second) ∧
    (∀ (attempt : Nat) (resp : Response),
        (∀ n : Int, atoi resp.retryAfter = some n → n ≤ 0) →
        backoff attempt resp = 2 ^ attempt * second) := by
  constructor
  · intro attempt resp n h hn
    have hne : resp.retryAfter ≠ "" := fun he => by rw [he, atoi_empty] at h; cases h
    simp [backoff, hne, h, hn]
  · intro attempt resp h
    by_cases hne : resp.retryAfter = ""
    · simp [backoff, hne, baseBackoffSec]
    · cases ha : atoi resp.retryAfter with
      | none => simp [backoff, hne, ha, baseBackoffSec]
      | some n =>
          have hn : ¬ 0 < n := not_lt.mpr (h n ha)
          simp [backoff, hne, ha, hn, baseBackoffSec]

/-- Witness for C1: `Retry-After: 5` waits 5 seconds; with no header,
attempt 0 waits 1 second and attempt 1 waits 2 seconds. -/
theorem c1_backoff_spec_witness :
    backoff 0 { statusCode := 429, retryAfter := "5" } = 5 * second ∧
    backoff 0 { statusCode := 429, retryAfter := "" } = 2 ^ 0 * second ∧
    backoff 1 { statusCode := 429, retryAfter := "" } = 2 ^ 1 * second :=
  ⟨c1_backoff_spec.1 0 { statusCode := 429, retryAfter := "5" } 5 rfl (by decide),
   c1_backoff_spec.2 0 { statusCode := 429, retryAfter := "" }
     (fun n h => by rw [atoi_empty] at h; cases h),
   c1_backoff_spec.2 1 { statusCode := 429, retryAfter := "" }
     (fun n h => by rw [atoi_empty] at h; cases h)⟩

/-- C2: with the fixed retry budget of one retry, a server answering 429 on
both attempts makes `Client.do` issue exactly 2 requests, back off once, and
return the second (still-429) response; no third request is issued. -/
theorem c2_retry_budget :
    ∀ (c : Client) (family url : String) (server : Nat → Except String Response)
      (r0 r1 : Response),
      ResolveURL family c.region = .ok url →
      server 0 = .ok r0 → server 1 = .ok r1 →
      r0.statusCode = 429 → r1.statusCode = 429 →
      clientDo c family server = .ok (r1, 2, [backoff 0 r0]) := by
  intro c family url server r0 r1 hres h0 h1 hs0 hs1
  have e1 : doGo server 1 0 = .ok (r1, 1, []) := by
    simp [doGo, h1, hs1]
  have e0 : doGo server 0 1 = .ok (r1, 2, [backoff 0 r0]) := by
    simp [doGo, h0, hs0, e1]
  simpa [clientDo, hres, maxRetries] using e0

/-- Witness for C2: a server that always answers 429 with no `Retry-After`
header, through a client for the `query` family in region `us`. -/
theorem c2_retry_budget_witness :
    clientDo { auth := "x", region := "us", projectID := "", debug := false } "query"
        (fun _ => .ok { statusCode := 429, retryAfter := "" }) =
      .ok ({ statusCode := 429, retryAfter := "" }, 2,
        [backoff 0 { statusCode := 429, retryAfter := "" }]) :=
  c2_retry_budget _ "query" "https://mixpanel.com/api/query" _
    { statusCode := 429, retryAfter := "" } { statusCode := 429, retryAfter := "" }
    rfl rfl rfl rfl rfl

/-! ## Claims about the endpoint resolver and client construction -/

/-- C7: `ResolveURL` fails (never yields a URL) for every (family, region)
pair outside the fixed 4×3 table; there is no wildcard fallback. -/
theorem c7_resolve_rejects_unknown :
    ∀ family region : String,
      family ∉ (["query", "export", "app", "ingestion"] : List String) ∨
        region ∉ (["us", "eu", "in"] : List String) →
      ∃ e, ResolveURL family region = .error e := by
  intro family region h
  rcases h with hf | hr
  · have h1 : List.lookup family baseURLs = none := by
      apply lookup_eq_none
      intro p hp hkp
      apply hf
      rw [hkp]
      simp only [baseURLs, List.mem_cons, List.not_mem_nil, or_false] at hp
      rcases hp with rfl | rfl | rfl | rfl <;> simp
    refine ⟨"unknown API family \"" ++ family ++
      "\"; valid families: query, export, app, ingestion", ?_⟩
    unfold ResolveURL
    rw [h1]
  · cases hfl : List.lookup family baseURLs with
    | none =>
        refine ⟨"unknown API family \"" ++ family ++
          "\"; valid families: query, export, app, ingestion", ?_⟩
        unfold ResolveURL
        rw [hfl]
    | some regions =>
        have hmem := lookup_mem family regions baseURLs hfl
        have hkeys : ∀ p ∈ regions, p.1 ∈ (["us", "eu", "in"] : List String) := by
          simp only [baseURLs, List.mem_cons, List.not_mem_nil, or_false,
            Prod.mk.injEq] at hmem
          rcases hmem with ⟨_, rfl⟩ | ⟨_, rfl⟩ | ⟨_, rfl⟩ | ⟨_, rfl⟩ <;>
            (intro p hp
             simp only [List.mem_cons, List.not_mem_nil, or_false] at hp
             rcases hp with rfl | rfl | rfl <;> simp)
        have h2 : List.lookup region regions = none := by
          apply lookup_eq_none
          intro p hp hrp
          exact hr (hrp ▸ hkeys p hp)
        exact ⟨"unknown region \"" ++ region ++ "\"; valid regions: us, eu, in",
          by simp only [ResolveURL, hfl, h2]⟩

/-- Witness for C7: an unknown family with a valid region is rejected. -/
theorem c7_resolve_rejects_unknown_witness :
    ∃ e, ResolveURL "metrics" "us" = .error e :=
  c7_resolve_rejects_unknown "metrics" "us" (Or.inl (by decide))

/-- C8: client construction fails whenever the account identifier or the
secret is empty, for every region value (valid or invalid). -/
theorem c8_new_requires_credentials :
    ∀ (sa ss region pid : String) (dbg : Bool),
      sa = "" ∨ ss = "" →
      ∃ e, New sa ss region pid dbg = .error e := by
  intro sa ss region pid dbg h
  unfold New
  by_cases hv : ValidRegion region = true
  · rw [if_neg (by simp [hv]), if_pos h]
    exact ⟨_, rfl⟩
  · rw [if_pos (by simp [Bool.not_eq_true] at hv; simp [hv])]
    exact ⟨_, rfl⟩

/-- Witness for C8: empty account with a valid region still fails. -/
theorem c8_new_requires_credentials_witness :
    ∃ e, New "" "secret" "us" "" false = .error e :=
  c8_new_requires_credentials "" "secret" "us" "" false (Or.inl rfl)

/-- C9: with no region configured (empty string), `newClient` does not fail:
it defaults the region to "us" and produces a client targeting the US
endpoints. -/
theorem c9_region_defaults_us :
    ∀ (sa ss pid : String) (dbg : Bool),
      sa ≠ "" → ss ≠ "" →
      ∃ c, newClient
          { serviceAccount := sa, serviceSecret := ss, mpToken := "",
            region := "", projectID := pid } dbg = .ok c ∧
        c.region = "us" ∧
        ResolveURL "query" c.region = .ok "https://mixpanel.com/api/query" := by
  intro sa ss pid dbg hsa hss
  refine ⟨{ auth := base64Encode (utf8Bytes (sa ++ ":" ++ ss)), region := "us",
            projectID := pid, debug := dbg }, ?_, rfl, rfl⟩
  simp [newClient, newClientWith, New, RegionUS, ValidRegion, hsa, hss]

/-- Witness for C9: concrete non-empty credentials, empty region. -/
theorem c9_region_defaults_us_witness :
    ∃ c, newClient { serviceAccount := "a", serviceSecret := "b", mpToken := "",
                     region := "", projectID := "p" } false = .ok c ∧
      c.region = "us" ∧
      ResolveURL "query" c.region = .ok "https://mixpanel.com/api/query" :=
  c9_region_defaults_us "a" "b" "p" false (by decide) (by decide)

/-- C10: a present but malformed `MP_TOKEN` (no colon, or an empty account
or secret part) makes `newClient` fail immediately, with no fallback to the
persisted credentials, whatever their values. -/
theorem c10_malformed_token_no_fallback :
    ∀ (env : Env) (dbg : Bool),
      env.mpToken ≠ "" →
      ((splitN2Colon env.mpToken).length ≠ 2 ∨
        (splitN2Colon env.mpToken).getD 0 "" = "" ∨
        (splitN2Colon env.mpToken).getD 1 "" = "") →
      newClient env dbg = .error "MP_TOKEN must be in the format `user:secret`" := by
  intro env dbg ht hm
  simp only [newClient, ht, ne_eq, not_false_iff, if_true, ite_not]
  rw [if_pos hm]

/-- Witness for C10: a colon-free token with validly configured persisted
credentials still fails. -/
theorem c10_malformed_token_no_fallback_witness :
    newClient { serviceAccount := "validuser", serviceSecret := "validsecret",
                mpToken := "nocolon", region := "us", projectID := "p" } false =
      .error "MP_TOKEN must be in the format `user:secret`" :=
  c10_malformed_token_no_fallback _ false (by decide) (Or.inl (by decide))

/-- C6 (code-bug evidence): the root command's pre-run validation accepts
the case-variant region "US" (it lowercases only a local copy), yet
`newClient` passes the raw value through and client construction rejects it
instead of treating it as "us"; the lowercase "us" itself is accepted. -/
theorem c6_case_variant_region_rejected :
    persistentPreRunRegionCheck "US" = .ok () ∧
    newClient { serviceAccount := "acct", serviceSecret := "secret", mpToken := "",
                region := "US", projectID := "p" } false =
      .error "invalid region \"US\"; must be one of: us, eu, in" ∧
    New "acct" "secret" "us" "p" false =
      .ok { auth := base64Encode (utf8Bytes ("acct" ++ ":" ++ "secret")),
            region := "us", projectID := "p", debug := false } :=
  ⟨rfl, rfl, rfl⟩

/-! ## Single-iteration lemmas for the pagination loop -/

/-- One loop iteration: a bad envelope status aborts with an error. -/
theorem fetchAux_step_badstatus {α : Type}
    {server : Nat → String → Except String (EngageResponse α)}
    {limit pageSize : Int} {acc : List α} {sid : String} {total : Int}
    {page fuel : Nat} {pr : EngageResponse α}
    (hs : server page sid = .ok pr)
    (h1 : pr.status ≠ "ok") (h2 : pr.status ≠ "") :
    fetchAux server limit pageSize acc sid total page (fuel + 1) =
      some (.error ("engage API returned status \"" ++ pr.status ++ "\"")) := by
  simp only [fetchAux, hs]
  rw [if_pos ⟨h1, h2⟩]

/-- One loop iteration: the result-cap stop condition truncates and stops. -/
theorem fetchAux_step_cap {α : Type}
    {server : Nat → String → Except String (EngageResponse α)}
    {limit pageSize : Int} {acc : List α} {sid : String} {total : Int}
    {page fuel : Nat} {pr : EngageResponse α} {t' : Int}
    (hs : server page sid = .ok pr)
    (hok : ¬ (pr.status ≠ "ok" ∧ pr.status ≠ ""))
    (hnt : (if total < 0 then pr.total else total) = t')
    (hcap : 0 < limit ∧ limit ≤ ((acc ++ pr.results).length : Int)) :
    fetchAux server limit pageSize acc sid total page (fuel + 1) =
      some (.ok ((acc ++ pr.results).take limit.toNat, t', 1)) := by
  simp only [fetchAux, hs]
  rw [if_neg hok, hnt, if_pos hcap]

/-- One loop iteration: the accumulated-total stop condition stops. -/
theorem fetchAux_step_total {α : Type}
    {server : Nat → String → Except String (EngageResponse α)}
    {limit pageSize : Int} {acc : List α} {sid : String} {total : Int}
    {page fuel : Nat} {pr : EngageResponse α} {t' : Int}
    (hs : server page sid = .ok pr)
    (hok : ¬ (pr.status ≠ "ok" ∧ pr.status ≠ ""))
    (hnt : (if total < 0 then pr.total else total) = t')
    (hcap : ¬ (0 < limit ∧ limit ≤ ((acc ++ pr.results).length : Int)))
    (htot : t' ≤ ((acc ++ pr.results).length : Int)) :
    fetchAux server limit pageSize acc sid total page (fuel + 1) =
      some (.ok (acc ++ pr.results, t', 1)) := by
  simp only [fetchAux, hs]
  rw [if_neg hok, hnt, if_neg hcap, if_pos htot]

/-- One loop iteration: the short-page stop condition stops. -/
theorem fetchAux_step_short {α : Type}
    {server : Nat → String → Except String (EngageResponse α)}
    {limit pageSize : Int} {acc : List α} {sid : String} {total : Int}
    {page fuel : Nat} {pr : EngageResponse α} {t' : Int}
    (hs : server page sid = .ok pr)
    (hok : ¬ (pr.status ≠ "ok" ∧ pr.status ≠ ""))
    (hnt : (if total < 0 then pr.total else total) = t')
    (hcap : ¬ (0 < limit ∧ limit ≤ ((acc ++ pr.results).length : Int)))
    (htot : ¬ (t' ≤ ((acc ++ pr.results).length : Int)))
    (hshort : (pr.results.length : Int) < pageSize) :
    fetchAux server limit pageSize acc sid total page (fuel + 1) =
      some (.ok (acc ++ pr.results, t', 1)) := by
  simp only [fetchAux, hs]
  rw [if_neg hok, hnt, if_neg hcap, if_neg htot, if_pos hshort]

/-- One loop iteration: no stop condition holds, so the loop recurses on the
next page with the appended accumulator and the updated session and total. -/
theorem fetchAux_step_continue {α : Type}
    {server : Nat → String → Except String (EngageResponse α)}
    {limit pageSize : Int} {acc : List α} {sid : String} {total : Int}
    {page fuel : Nat} {pr : EngageResponse α} {t' : Int}
    (hs : server page sid = .ok pr)
    (hok : ¬ (pr.status ≠ "ok" ∧ pr.status ≠ ""))
    (hnt : (if total < 0 then pr.total else total) = t')
    (hcap : ¬ (0 < limit ∧ limit ≤ ((acc ++ pr.results).length : Int)))
    (htot : ¬ (t' ≤ ((acc ++ pr.results).length : Int)))
    (hshort : ¬ ((pr.results.length : Int) < pageSize)) :
    fetchAux server limit pageSize acc sid total page (fuel + 1) =
      match fetchAux server limit pageSize (acc ++ pr.results) pr.sessionId t'
          (page + 1) fuel with
      | none => none
      | some (.error e) => some (.error e)
      | some (.ok (rs, t, n)) => some (.ok (rs, t, n + 1)) := by
  simp only [fetchAux, hs]
  rw [if_neg hok, hnt, if_neg hcap, if_neg htot, if_neg hshort]

/-! ## Claims about the pagination loop -/

/-- C3: whenever a positive result cap is set and the accumulator reaches or
exceeds it after appending a page, the loop stops immediately, truncates the
accumulator to exactly the cap, and issues no further requests; with pages
of 100 records and a cap of 120, exactly 120 records are returned after the
second page. -/
theorem c3_cap_truncates_and_stops :
    (∀ (α : Type) (server : Nat → String → Except String (EngageResponse α))
        (limit pageSize : Int) (acc : List α) (sid : String) (total : Int)
        (page fuel : Nat) (pr : EngageResponse α),
        server page sid = .ok pr →
        (pr.status = "ok" ∨ pr.status = "") →
        0 < limit → limit ≤ ((acc ++ pr.results).length : Int) →
        fetchAux server limit pageSize acc sid total page (fuel + 1) =
          some (.ok ((acc ++ pr.results).take limit.toNat,
            if total < 0 then pr.total else total, 1))) ∧
    (∀ fuel : Nat,
        fetchAll capServer 120 100 (fuel + 2) =
          some (.ok ((List.replicate 100 0 ++ List.replicate 100 1).take 120, 250, 2)) ∧
        ((List.replicate 100 (0 : Nat) ++ List.replicate 100 1).take 120).length = 120) := by
  constructor
  · intro α server limit pageSize acc sid total page fuel pr hs hok hl hge
    have hstat : ¬ (pr.status ≠ "ok" ∧ pr.status ≠ "") := by
      rcases hok with h | h <;> simp [h]
    simp only [fetchAux, hs]
    rw [if_neg hstat, if_pos ⟨hl, hge⟩]
  · intro fuel
    constructor
    · have h0 : fetchAux capServer 120 100 [] "" (-1) 0 (fuel + 2) =
          match fetchAux capServer 120 100 ([] ++ List.replicate 100 0) "sess" 250 1
              (fuel + 1) with
          | none => none
          | some (.error e) => some (.error e)
          | some (.ok (rs, t, n)) => some (.ok (rs, t, n + 1)) :=
        @fetchAux_step_continue Nat capServer 120 100 [] "" (-1) 0 (fuel + 1)
          ⟨0, 100, "sess", "ok", 250, List.replicate 100 0⟩ 250
          rfl (by decide) (by decide) (by decide) (by decide) (by decide)
      rw [List.nil_append] at h0
      have h1 : fetchAux capServer 120 100 (List.replicate 100 0) "sess" 250 1 (fuel + 1) =
          some (.ok ((List.replicate 100 0 ++ List.replicate 100 1).take (120 : Int).toNat,
            250, 1)) :=
        @fetchAux_step_cap Nat capServer 120 100 (List.replicate 100 0) "sess" 250 1 fuel
          ⟨1, 100, "sess", "ok", 250, List.replicate 100 1⟩ 250
          rfl (by decide) (by decide) (by decide)
      simp only [fetchAll]
      rw [if_neg (by norm_num), h0, h1]
      rfl
    · rw [List.length_take, List.length_append, List.length_replicate,
        List.length_replicate]
      omega

/-- Witness for C3: the cap branch fires on a 100-record accumulator after a
100-record page with cap 120, returning the first 120 records at once. -/
theorem c3_cap_truncates_and_stops_witness :
    fetchAux capServer 120 100 (List.replicate 100 0) "sess" 250 1 3 =
      some (.ok ((List.replicate 100 0 ++ List.replicate 100 1).take (120 : Int).toNat,
        if (250 : Int) < 0 then 250 else 250, 1)) :=
  c3_cap_truncates_and_stops.1 Nat capServer 120 100 (List.replicate 100 0) "sess" 250 1 2
    { page := 1, pageSize := 100, sessionId := "sess", status := "ok",
      total := 250, results := List.replicate 100 1 }
    rfl (Or.inl rfl) (by decide) (by decide)

/-- C4: a page envelope whose status is neither `"ok"` nor the empty string
aborts the whole fetch with an error and no records — even when earlier
pages had already been accumulated; concretely, a successful 100-record
first page followed by a status-"error" page yields only an error. -/
theorem c4_bad_status_aborts :
    (∀ (α : Type) (server : Nat → String → Except String (EngageResponse α))
        (limit pageSize : Int) (acc : List α) (sid : String) (total : Int)
        (page fuel : Nat) (pr : EngageResponse α),
        server page sid = .ok pr →
        pr.status ≠ "ok" → pr.status ≠ "" →
        fetchAux server limit pageSize acc sid total page (fuel + 1) =
          some (.error ("engage API returned status \"" ++ pr.status ++ "\""))) ∧
    (∀ fuel : Nat,
        fetchAll errStatusServer 0 100 (fuel + 2) =
          some (.error "engage API returned status \"error\"")) := by
  constructor
  · intro α server limit pageSize acc sid total page fuel pr hs h1 h2
    simp only [fetchAux, hs]
    rw [if_pos ⟨h1, h2⟩]
  · intro fuel
    have h0 : fetchAux errStatusServer 0 100 [] "" (-1) 0 (fuel + 2) =
        match fetchAux errStatusServer 0 100 ([] ++ List.replicate 100 0) "sess" 250 1
            (fuel + 1) with
        | none => none
        | some (.error e) => some (.error e)
        | some (.ok (rs, t, n)) => some (.ok (rs, t, n + 1)) :=
      @fetchAux_step_continue Nat errStatusServer 0 100 [] "" (-1) 0 (fuel + 1)
        ⟨0, 100, "sess", "ok", 250, List.replicate 100 0⟩ 250
        rfl (by decide) (by decide) (by decide) (by decide) (by decide)
    rw [List.nil_append] at h0
    have h1 : fetchAux errStatusServer 0 100 (List.replicate 100 0) "sess" 250 1 (fuel + 1) =
        some (.error ("engage API returned status \"" ++ "error" ++ "\"")) :=
      @fetchAux_step_badstatus Nat errStatusServer 0 100 (List.replicate 100 0) "sess" 250 1
        fuel ⟨1, 100, "sess", "error", 250, []⟩ rfl (by decide) (by decide)
    simp only [fetchAll]
    rw [if_neg (by norm_num), h0, h1]
    rfl

/-- Witness for C4: the abort fires on a non-empty accumulator. -/
theorem c4_bad_status_aborts_witness :
    fetchAux errStatusServer 0 100 (List.replicate 100 0) "sess" 250 1 3 =
      some (.error ("engage API returned status \"" ++ "error" ++ "\"")) :=
  c4_bad_status_aborts.1 Nat errStatusServer 0 100 (List.replicate 100 0) "sess" 250 1 2
    { page := 1, pageSize := 100, sessionId := "sess", status := "error",
      total := 250, results := [] }
    rfl (by decide) (by decide)

/-- Termination core for the pagination loop: once the server-reported total
is non-negative and within `F` of the accumulator size, fuel `F + 1`
suffices (continuing requires a full page, so each iteration adds at least
`pageSize ≥ 1` records while the accumulator stays below the fixed total). -/
theorem fetchAux_terminates {α : Type}
    (server : Nat → String → Except String (EngageResponse α))
    (limit pageSize : Int) (hps : 1 ≤ pageSize) (total : Int) (h0 : 0 ≤ total) :
    ∀ (F : Nat) (acc : List α) (sid : String) (page : Nat),
      total.toNat ≤ acc.length + F →
      fetchAux server limit pageSize acc sid total page (F + 1) ≠ none := by
  intro F
  induction F with
  | zero =>
      intro acc sid page hb
      cases hs : server page sid with
      | error e => simp [fetchAux, hs]
      | ok pr =>
          by_cases hok : pr.status ≠ "ok" ∧ pr.status ≠ ""
          · rw [fetchAux_step_badstatus hs hok.1 hok.2]
            simp
          · have hnt : (if total < 0 then pr.total else total) = total := if_neg (by omega)
            by_cases hcap : 0 < limit ∧ limit ≤ ((acc ++ pr.results).length : Int)
            · rw [fetchAux_step_cap hs hok hnt hcap]
              simp
            · by_cases htot : total ≤ ((acc ++ pr.results).length : Int)
              · rw [fetchAux_step_total hs hok hnt hcap htot]
                simp
              · exfalso
                have hlen : acc.length ≤ (acc ++ pr.results).length := by
                  rw [List.length_append]
                  omega
                omega
  | succ F ih =>
      intro acc sid page hb
      cases hs : server page sid with
      | error e => simp [fetchAux, hs]
      | ok pr =>
          by_cases hok : pr.status ≠ "ok" ∧ pr.status ≠ ""
          · rw [fetchAux_step_badstatus hs hok.1 hok.2]
            simp
          · have hnt : (if total < 0 then pr.total else total) = total := if_neg (by omega)
            by_cases hcap : 0 < limit ∧ limit ≤ ((acc ++ pr.results).length : Int)
            · rw [fetchAux_step_cap hs hok hnt hcap]
              simp
            · by_cases htot : total ≤ ((acc ++ pr.results).length : Int)
              · rw [fetchAux_step_total hs hok hnt hcap htot]
                simp
              · by_cases hshort : (pr.results.length : Int) < pageSize
                · rw [fetchAux_step_short hs hok hnt hcap htot hshort]
                  simp
                · rw [fetchAux_step_continue hs hok hnt hcap htot hshort]
                  have hbound : total.toNat ≤ (acc ++ pr.results).length + F := by
                    rw [List.length_append]
                    omega
                  have hrec := ih (acc ++ pr.results) pr.sessionId (page + 1) hbound
                  cases hfx : fetchAux server limit pageSize (acc ++ pr.results)
                      pr.sessionId total (page + 1) (F + 1) with
                  | none => exact absurd hfx hrec
                  | some v =>
                      cases v with
                      | error e => simp [hfx]
                      | ok t =>
                          rcases t with ⟨rs, t, n⟩
                          simp [hfx]

/-- C5: if the server reports `total = 0` on the first page while actually
serving 50 records at page size 100 with no cap, the loop stops after
exactly one request and returns those 50 records; and for every server
whatsoever the fetch-all loop terminates given sufficient fuel — a wrong
total never causes an infinite loop. -/
theorem c5_unreliable_total_terminates :
    (∀ (α : Type) (server : Nat → String → Except String (EngageResponse α))
        (pr : EngageResponse α) (fuel : Nat),
        server 0 "" = .ok pr →
        (pr.status = "ok" ∨ pr.status = "") →
        pr.total = 0 → pr.results.length = 50 →
        fetchAll server 0 100 (fuel + 1) = some (.ok (pr.results, 0, 1))) ∧
    (∀ (α : Type) (server : Nat → String → Except String (EngageResponse α))
        (limit pageSize : Int),
        ∃ fuel, fetchAll server limit pageSize fuel ≠ none) := by
  constructor
  · intro α server pr fuel hs hok htotal hlen
    have hstat : ¬ (pr.status ≠ "ok" ∧ pr.status ≠ "") := by
      rcases hok with h | h <;> simp [h]
    have hstep : fetchAux server 0 100 [] "" (-1) 0 (fuel + 1) =
        some (.ok ([] ++ pr.results, 0, 1)) :=
      fetchAux_step_total hs hstat (by rw [if_pos (by norm_num), htotal])
        (by simp) (by rw [List.nil_append, hlen]; norm_num)
    rw [List.nil_append] at hstep
    simp only [fetchAll]
    rw [if_neg (by norm_num), hstep]
  · intro α server limit pageSize
    by_cases hvalid : pageSize < 1 ∨ 1000 < pageSize
    · exact ⟨1, by simp [fetchAll, hvalid]⟩
    · have hps : 1 ≤ pageSize := by omega
      have hwrap : ∀ fuel, fetchAll server limit pageSize fuel =
          fetchAux server limit pageSize [] "" (-1) 0 fuel := by
        intro fuel
        simp only [fetchAll]
        rw [if_neg hvalid]
      cases hs : server 0 "" with
      | error e =>
          refine ⟨1, ?_⟩
          rw [hwrap]
          simp [fetchAux, hs]
      | ok pr =>
          by_cases hok : pr.status ≠ "ok" ∧ pr.status ≠ ""
          · refine ⟨1, ?_⟩
            rw [hwrap, fetchAux_step_badstatus hs hok.1 hok.2]
            simp
          · have hnt : (if (-1 : Int) < 0 then pr.total else -1) = pr.total :=
              if_pos (by norm_num)
            by_cases hcap : 0 < limit ∧ limit ≤ ((([] : List α) ++ pr.results).length : Int)
            · refine ⟨1, ?_⟩
              rw [hwrap, fetchAux_step_cap hs hok hnt hcap]
              simp
            · by_cases htot : pr.total ≤ ((([] : List α) ++ pr.results).length : Int)
              · refine ⟨1, ?_⟩
                rw [hwrap, fetchAux_step_total hs hok hnt hcap htot]
                simp
              · by_cases hshort : (pr.results.length : Int) < pageSize
                · refine ⟨1, ?_⟩
                  rw [hwrap, fetchAux_step_short hs hok hnt hcap htot hshort]
                  simp
                · refine ⟨pr.total.toNat + 2, ?_⟩
                  rw [hwrap, fetchAux_step_continue hs hok hnt hcap htot hshort]
                  have h0t : 0 ≤ pr.total := by
                    rw [List.nil_append] at htot
                    omega
                  have hrec := fetchAux_terminates server limit pageSize hps pr.total h0t
                    pr.total.toNat ([] ++ pr.results) pr.sessionId 1 (by omega)
                  cases hfx : fetchAux server limit pageSize ([] ++ pr.results)
                      pr.sessionId pr.total 1 (pr.total.toNat + 1) with
                  | none => exact absurd hfx hrec
                  | some v =>
                      cases v with
                      | error e => simp [hfx]
                      | ok t =>
                          rcases t with ⟨rs, t, n⟩
                          simp [hfx]

/-- Witness for C5: the concrete total-zero server stops after one request
with its 50 records. -/
theorem c5_unreliable_total_terminates_witness :
    fetchAll totalZeroServer 0 100 5 = some (.ok (List.replicate 50 7, 0, 1)) :=
  c5_unreliable_total_terminates.1 Nat totalZeroServer
    ⟨0, 100, "sess", "ok", 0, List.replicate 50 7⟩ 4 rfl (Or.inl rfl) rfl (by decide)

end MP
